import Mathlib

/-!
# Verification of the architecture diagram editor's core engine

Shallow embedding of the scene model, XML codec, edit operations and
history manager of the interactive diagram editor
(`src/unnamed/part_000`, the editor variant that implements the full
engine: stale-cell removal in encode, dangling-edge pruning on delete,
edge resize/rotation).

Modelling conventions:
* JS numbers are modelled as exact rationals (`ℚ`).  IEEE-754 artefacts
  (rounding, `NaN`, `Infinity`) are outside this layer, with one
  exception: the result of `parseFloat` on an attribute string is
  modelled faithfully as `Option ℚ`, where `none` stands for `NaN`
  (see `jsParseFloat`, `readNumAttr`).
* The DOM document is modelled structurally (`XmlDoc`): the cells in
  document order, each with its optional attributes (DOM
  `getAttribute` returns null for a missing attribute, modelled as
  `none`) and its `mxGeometry` child.
* The optional TS fields `source?`, `target?`, `points?`, `rotation?`
  are modelled as total fields with defaults `""`, `""`, `[]`, `0`:
  every read site in the source coalesces them exactly this way
  (`e.source || ''`, `el.points && el.points.length > 0`,
  `el.rotation || 0`), so the defaulted model is observationally
  equivalent.
-/

namespace ArchEd

/-- 2D point (`type Point = { x: number; y: number }`). -/
structure Point where
  x : ℚ
  y : ℚ
deriving DecidableEq

/-- Discriminant of the `DiagramElement` tagged union (`type: 'vertex' | 'edge'`). -/
inductive ElemType where
  | vertex
  | edge
deriving DecidableEq

/-- `interface DiagramElement` from the source, with optional fields defaulted
(see the module docstring). -/
structure DiagramElement where
  id : String
  type : ElemType
  x : ℚ
  y : ℚ
  width : ℚ
  height : ℚ
  value : String
  style : String
  source : String := ""
  target : String := ""
  points : List Point := []
  rotation : ℚ := 0
deriving DecidableEq

/-! ## JS string/number primitives

`parseFloat(attr || "dflt")` is how every numeric attribute is read in
`parseXmlToElements`.  We model `parseFloat` as `jsParseFloat : String → Option ℚ`
with `none` standing for `NaN`, and the `||` coalescing (null and `""` are both
falsy in JS) as `jsOr`. -/

/-- JS `a || d` for a nullable string `a`: null and the empty string are falsy. -/
def jsOr (a : Option String) (d : String) : String :=
  match a with
  | none => d
  | some s => if s = "" then d else s

/-- Split a leading run of decimal digits off a character list. -/
def takeDigits : List Char → List Char × List Char
  | [] => ([], [])
  | c :: cs =>
    if c.isDigit then
      let r := takeDigits cs
      (c :: r.1, r.2)
    else ([], c :: cs)

/-- Numeric value of a digit character. -/
def digitVal (c : Char) : ℕ := c.toNat - '0'.toNat

/-- Value of a digit string, most significant first. -/
def digitsToNat (ds : List Char) : ℕ := ds.foldl (fun a c => 10 * a + digitVal c) 0

/-- The exponent denoted by a trailing `e`/`E` part, as in JS `parseFloat`
(an `e` not followed by digits contributes exponent 0, i.e. is not consumed). -/
def parseExponent (cs : List Char) : ℤ :=
  match cs with
  | 'e' :: rest | 'E' :: rest =>
    (match rest with
     | '-' :: r2 =>
       let d := takeDigits r2
       if d.1 = [] then 0 else -(digitsToNat d.1 : ℤ)
     | '+' :: r2 =>
       let d := takeDigits r2
       if d.1 = [] then 0 else (digitsToNat d.1 : ℤ)
     | r2 =>
       let d := takeDigits r2
       if d.1 = [] then 0 else (digitsToNat d.1 : ℤ))
  | _ => 0

/-- Scale a rational by `10 ^ e` for `e : ℤ`. -/
def scalePow10 (q : ℚ) (e : ℤ) : ℚ :=
  if 0 ≤ e then q * (10 : ℚ) ^ e.toNat else q / (10 : ℚ) ^ (-e).toNat

/-- JS `parseFloat`: longest numeric prefix after leading whitespace; `none`
models `NaN` (no digits found).  The `Infinity` keyword is not modelled:
no input of this development contains it. -/
def jsParseFloat (str : String) : Option ℚ :=
  let cs := str.toList.dropWhile (fun c => c = ' ' ∨ c = '\t' ∨ c = '\n' ∨ c = '\r')
  let signed : ℚ × List Char :=
    match cs with
    | '-' :: r => (-1, r)
    | '+' :: r => (1, r)
    | r => (1, r)
  let ip := takeDigits signed.2
  let fp :=
    match ip.2 with
    | '.' :: r => takeDigits r
    | r => ([], r)
  if ip.1 = [] ∧ fp.1 = [] then none
  else
    let mant : ℚ := (digitsToNat ip.1 : ℚ) + (digitsToNat fp.1 : ℚ) / (10 : ℚ) ^ fp.1.length
    some (signed.1 * scalePow10 mant (parseExponent fp.2))

/-- The source's numeric-attribute read `parseFloat(attr || dflt)`,
`NaN`-faithful: `none` is `NaN`. -/
def readNumAttr (a : Option String) (dflt : String) : Option ℚ :=
  jsParseFloat (jsOr a dflt)

/-- `ℚ`-level numeric-attribute read used by the element-level codec.
`parseFloat` of a present-but-unparsable attribute is `NaN` in JS; `ℚ` has no
`NaN`, so this layer collapses that case to `0`.  Claims about the `NaN`
behaviour of the decoder are settled against the faithful `readNumAttr`,
never against this collapse; all concrete codec inputs in this file have
parsable attributes, where the two agree. -/
def readNumQ (a : Option String) (dflt : String) : ℚ :=
  (readNumAttr a dflt).getD 0

/-- Digits after the decimal point of `r / d` (`r < d`), `fuel`-bounded;
stops when the remainder is 0.  Together with `numToString` this reproduces
JS `String(number)` on terminating decimals (all numbers serialized in this
development). -/
def fracDigits : ℕ → ℕ → ℕ → List Char
  | 0, _, _ => []
  | _ + 1, 0, _ => []
  | fuel + 1, r, d =>
    let r10 := r * 10
    Char.ofNat ('0'.toNat + r10 / d) :: fracDigits fuel (r10 % d) d

/-- JS `String(number)` for the terminating-decimal rationals this codec
serializes (`String(el.x)` etc. in `elementsToXml`). -/
def numToString (q : ℚ) : String :=
  let sign := if q.num < 0 then "-" else ""
  let n := q.num.natAbs
  let ip := n / q.den
  let r := n % q.den
  if r = 0 then sign ++ toString ip
  else sign ++ toString ip ++ "." ++ String.mk (fracDigits 40 r q.den)

/-! ## XML document model

Structural model of the DOM documents the codec manipulates: a flat list of
`mxCell` nodes in document order (all cells sit under the `root` node in
this format; `root.appendChild` appends at the end of the list), each cell
carrying its attributes and its `mxGeometry` child, whose children are
`mxPoint` nodes and at most one `Array` node of waypoint `mxPoint`s. -/

/-- An `mxPoint` node: `as`, `x`, `y` attributes (missing = `none`). -/
structure MxPointNode where
  asv : Option String := none
  x : Option String := none
  y : Option String := none
deriving DecidableEq

/-- A child node of an `mxGeometry`: a bare `mxPoint`, or an `Array` of
`mxPoint`s. -/
inductive GeomChild where
  | point (p : MxPointNode)
  | array (asv : Option String) (pts : List MxPointNode)
deriving DecidableEq

/-- An `mxGeometry` node: numeric attributes plus child nodes. -/
structure MxGeometry where
  x : Option String := none
  y : Option String := none
  width : Option String := none
  height : Option String := none
  relative : Option String := none
  asv : Option String := none
  children : List GeomChild := []
deriving DecidableEq

/-- An `mxCell` node with the attributes the editor reads or writes, and its
(first) `mxGeometry` child. -/
structure MxCell where
  id : Option String := none
  value : Option String := none
  style : Option String := none
  vertex : Option String := none
  edge : Option String := none
  source : Option String := none
  target : Option String := none
  parent : Option String := none
  geom : Option MxGeometry := none
deriving DecidableEq

/-- A parsed XML document: its `mxCell` nodes in document order. -/
structure XmlDoc where
  cells : List MxCell
deriving DecidableEq

/-- `cell.getElementsByTagName("Array")[0]`: the first `Array` node among the
cell's descendants (these only occur inside the geometry). -/
def firstArrayPoints : List GeomChild → Option (List MxPointNode)
  | [] => none
  | .point _ :: rest => firstArrayPoints rest
  | .array _ pts :: _ => some pts

/-- `cell.querySelector('mxPoint[as="tag"]')`: first `mxPoint` descendant
with the given `as` attribute, in document order (points inside an `Array`
are visited at the array's position). -/
def findAsPoint (tag : String) : List GeomChild → Option MxPointNode
  | [] => none
  | .point p :: rest =>
    if p.asv = some tag then some p else findAsPoint tag rest
  | .array _ pts :: rest =>
    match pts.find? (fun p => p.asv = some tag) with
    | some p => some p
    | none => findAsPoint tag rest

/-! ## Decode (`parseXmlToElements`, src/unnamed/part_000 lines 94-179)

The `DOMParser` step (text to DOM) is the external XML parser; decode is
modelled from the parsed document on.  Malformed-XML recovery (`catch`
returning `[]`) happens before this model. -/

/-- The body of the `for (const cell of cells)` loop of `parseXmlToElements`:
how one `mxCell` decodes (`none` = the cell is skipped). -/
def parseCell (cell : MxCell) : Option DiagramElement :=
  let id := cell.id.getD ""
  if id = "0" ∨ id = "1" then none
  else
    let value := cell.value.getD ""
    let style := cell.style.getD ""
    let isEdge := cell.edge = some "1"
    let gchildren := (cell.geom.map MxGeometry.children).getD []
    if isEdge then
      let source := cell.source.getD ""
      let target := cell.target.getD ""
      let points :=
        match firstArrayPoints gchildren with
        | none => []
        | some aps => aps.map (fun p => Point.mk (readNumQ p.x "0") (readNumQ p.y "0"))
      let bounds : ℚ × ℚ × ℚ × ℚ :=
        match findAsPoint "sourcePoint" gchildren, findAsPoint "targetPoint" gchildren with
        | some sp, some tp =>
          let sx := readNumQ sp.x "0"
          let sy := readNumQ sp.y "0"
          let tx := readNumQ tp.x "0"
          let ty := readNumQ tp.y "0"
          (min sx tx, min sy ty, abs (tx - sx), abs (ty - sy))
        | _, _ => (0, 0, 0, 0)
      some { id := id, type := .edge, x := bounds.1, y := bounds.2.1,
             width := bounds.2.2.1, height := bounds.2.2.2,
             value := value, style := style, source := source, target := target,
             points := points }
    else
      match cell.geom with
      | some g =>
        some { id := id, type := .vertex,
               x := readNumQ g.x "0", y := readNumQ g.y "0",
               width := readNumQ g.width "120", height := readNumQ g.height "60",
               value := value, style := style }
      | none => none

/-- `parseXmlToElements`: decode every cell in document order. -/
def parseXmlToElements (doc : XmlDoc) : List DiagramElement :=
  doc.cells.filterMap parseCell

/-- The faithful (`NaN`-aware) reading of a vertex geometry's four numeric
attributes, exactly as in lines 156-159 of the decoder
(`parseFloat(geometry.getAttribute("x") || "0")`, …, defaults `"120"`/`"60"`
for width/height); `none` = `NaN`. -/
def vertexGeomNums (g : MxGeometry) : Option ℚ × Option ℚ × Option ℚ × Option ℚ :=
  (readNumAttr g.x "0", readNumAttr g.y "0",
   readNumAttr g.width "120", readNumAttr g.height "60")

/-! ## The shared `points`-fallback idiom -/

/-- The idiom `el.points && el.points.length > 0 ? el.points
: [{x: el.x, y: el.y}, {x: el.x + el.width, y: el.y + el.height}]`, repeated
at every geometric use site (encode, drag start, resize, rotate start). -/
def fallbackPoints (el : DiagramElement) : List Point :=
  if el.points = [] then
    [⟨el.x, el.y⟩, ⟨el.x + el.width, el.y + el.height⟩]
  else el.points

/-! ## Encode (`elementsToXml`, src/unnamed/part_000 lines 182-341)

Encode is a merge into the existing document: remove stale cells, then for
each element either update its matching cell in place or append a fresh
cell.  The final `XMLSerializer` step is the external serializer; the model
stops at the document. -/

/-- `{"0", "1", ...elements.map(e => e.id)}` — the ids encode keeps. -/
def keepIdsOf (elements : List DiagramElement) : List String :=
  "0" :: "1" :: elements.map (fun e => e.id)

/-- The removal pass (lines 198-204): a cell is removed iff its id is truthy
(nonempty) and not in the keep set (`keepIds.has` modelled as list
membership); i.e. it is kept iff its id is empty or kept. -/
def removeStale (elements : List DiagramElement) (cells : List MxCell) : List MxCell :=
  cells.filter (fun c =>
    let id := c.id.getD ""
    !(decide (id ≠ "") && !(decide (id ∈ keepIdsOf elements))))

/-- Build the geometry children written for an edge: `sourcePoint` =
first point, `targetPoint` = last point, and an `Array` of the interior
waypoints when there are more than two points (lines 246-269 / 303-325). -/
def edgeGeomChildren (pts : List Point) : List GeomChild :=
  [.point ⟨some "sourcePoint", some (numToString (pts.headD ⟨0, 0⟩).x),
           some (numToString (pts.headD ⟨0, 0⟩).y)⟩,
   .point ⟨some "targetPoint", some (numToString (pts.getLastD ⟨0, 0⟩).x),
           some (numToString (pts.getLastD ⟨0, 0⟩).y)⟩]
  ++ (if 2 < pts.length then
        [.array (some "points")
          (((pts.drop 1).dropLast).map (fun p =>
            ⟨none, some (numToString p.x), some (numToString p.y)⟩))]
      else [])

/-- The create-new-cell branch of encode (lines 209-275): a fresh cell for an
element with no matching cell in the document. -/
def newCellFor (el : DiagramElement) : MxCell :=
  if el.type = .vertex then
    { id := some el.id, parent := some "1", vertex := some "1",
      style := if el.style ≠ "" then some el.style else none,
      value := some el.value,  -- `if (el.value != null)`: strings are never null here
      geom := some { x := some (numToString el.x), y := some (numToString el.y),
                     width := some (numToString el.width),
                     height := some (numToString el.height),
                     asv := some "geometry" } }
  else
    { id := some el.id, parent := some "1", edge := some "1",
      style := if el.style ≠ "" then some el.style else none,
      source := if el.source ≠ "" then some el.source else none,
      target := if el.target ≠ "" then some el.target else none,
      geom := some { relative := some "1", asv := some "geometry",
                     children := edgeGeomChildren (fallbackPoints el) } }

/-- The update-existing-cell branch of encode (lines 277-332).  A vertex cell
gets its geometry attributes, `value` and (when nonempty) `style` rewritten;
an edge cell gets its geometry children cleared and rewritten and its
`style`/`source`/`target` rewritten when nonempty — its `value` attribute is
never touched.  A cell without a geometry child gets a fresh one
(`|| doc.createElement("mxGeometry")` + conditional `appendChild`). -/
def updateCell (el : DiagramElement) (c : MxCell) : MxCell :=
  let g0 := c.geom.getD {}
  if el.type = .vertex then
    { c with
      geom := some { g0 with x := some (numToString el.x), y := some (numToString el.y),
                             width := some (numToString el.width),
                             height := some (numToString el.height),
                             asv := some "geometry" },
      value := some el.value,
      style := if el.style ≠ "" then some el.style else c.style }
  else
    { c with
      geom := some { g0 with relative := some "1", asv := some "geometry",
                             children := edgeGeomChildren (fallbackPoints el) },
      style := if el.style ≠ "" then some el.style else c.style,
      source := if el.source ≠ "" then some el.source else c.source,
      target := if el.target ≠ "" then some el.target else c.target }

/-- `doc.querySelector('mxCell[id="…"]')` followed by in-place mutation:
rewrite the first cell whose `id` attribute equals `elId`. -/
def replaceFirstCell (elId : String) (f : MxCell → MxCell) : List MxCell → List MxCell
  | [] => []
  | c :: cs => if c.id = some elId then f c :: cs else c :: replaceFirstCell elId f cs

/-- One iteration of encode's `for (const el of elements)` loop: update the
matching cell in place, or append a fresh cell to the root. -/
def applyElement (cells : List MxCell) (el : DiagramElement) : List MxCell :=
  if cells.any (fun c => c.id = some el.id) then
    replaceFirstCell el.id (updateCell el) cells
  else cells ++ [newCellFor el]

/-- `elementsToXml`: remove stale cells, then merge each element into the
document.  (The source also builds an `existingIds` set it never uses, and
returns the input text unchanged when it is empty or unparsable — outside
this document-level model.) -/
def elementsToXml (elements : List DiagramElement) (doc : XmlDoc) : XmlDoc :=
  ⟨elements.foldl applyElement (removeStale elements doc.cells)⟩

/-! ## Scene edit operations -/

/-- Ids of the vertices of a scene
(`new Set(els.filter(e => e.type === 'vertex').map(e => e.id))`). -/
def vertexIdsOf (els : List DiagramElement) : List String :=
  (els.filter (fun e => decide (e.type = .vertex))).map (fun e => e.id)

/-- `pruneDanglingEdges` (lines 939-942): keep vertices, and keep an edge only
when both `source` and `target` are ids of vertices of the list (`Set.has` is
modelled as list membership).  Note the check is `vertexIds.has(e.source || '')`:
an empty endpoint is looked up like any other id, so an edge with an empty
`source` or `target` survives only if some vertex has id `""`. -/
def pruneDanglingEdges (els : List DiagramElement) : List DiagramElement :=
  let vertexIds := vertexIdsOf els
  els.filter (fun e =>
    decide (e.type = .vertex) ||
    (decide (e.source ∈ vertexIds) && decide (e.target ∈ vertexIds)))

/-- `deleteSelected` (lines 944-957), scene part: drop the selected element,
then prune dangling edges. -/
def deleteSelected (els : List DiagramElement) (selectedId : String) : List DiagramElement :=
  pruneDanglingEdges (els.filter (fun el => decide (el.id ≠ selectedId)))

/-- The edge element `addArrow` builds from the two looked-up endpoint
elements (lines 1028-1043); `freshId` models `arrow_${Date.now()}_${Math.random()}`
and `arrowStyle` the `getArrowStyle(selectedArrowType)` result. -/
def arrowBetween (sEl tEl : DiagramElement) (sourceId targetId freshId arrowStyle : String) :
    DiagramElement :=
  { id := freshId, type := .edge,
    x := min (sEl.x + sEl.width / 2) (tEl.x + tEl.width / 2),
    y := min (sEl.y + sEl.height / 2) (tEl.y + tEl.height / 2),
    width := abs ((sEl.x + sEl.width / 2) - (tEl.x + tEl.width / 2)),
    height := abs ((sEl.y + sEl.height / 2) - (tEl.y + tEl.height / 2)),
    value := "", style := arrowStyle,
    source := sourceId, target := targetId,
    points := [⟨sEl.x + sEl.width / 2, sEl.y + sEl.height / 2⟩,
               ⟨tEl.x + tEl.width / 2, tEl.y + tEl.height / 2⟩] }

/-- `addArrow` (lines 1022-1051), scene part: look both ids up among **all**
elements (`elements.find(el => el.id === sourceId)` — not only vertices);
silently return the scene unchanged when either lookup fails, else append
the new edge. -/
def addArrow (els : List DiagramElement) (sourceId targetId freshId arrowStyle : String) :
    List DiagramElement :=
  match els.find? (fun el => decide (el.id = sourceId)),
        els.find? (fun el => decide (el.id = targetId)) with
  | some sEl, some tEl => els ++ [arrowBetween sEl tEl sourceId targetId freshId arrowStyle]
  | _, _ => els

/-- The eight resize handles (`'nw','ne','se','sw','n','e','s','w'`). -/
inductive ResizeHandle where
  | nw | n | ne | e | se | s | sw | w
deriving DecidableEq

/-- Candidate new bounds computed by the `switch (resizeHandle)` of
`handleResizeMove` (identical switch in the vertex branch, lines 721-756,
and the edge branch, lines 785-820) from the pointer position and the
element's current bounds. -/
structure ResizeBounds where
  nx : ℚ
  ny : ℚ
  nw : ℚ
  nh : ℚ
deriving DecidableEq

/-- The `switch (resizeHandle)` itself. -/
def vertexResizeBounds (h : ResizeHandle) (mouseX mouseY : ℚ) (element : DiagramElement) :
    ResizeBounds :=
  match h with
  | .nw => ⟨mouseX, mouseY, element.x + element.width - mouseX,
            element.y + element.height - mouseY⟩
  | .n => ⟨element.x, mouseY, element.width, element.y + element.height - mouseY⟩
  | .ne => ⟨element.x, mouseY, mouseX - element.x, element.y + element.height - mouseY⟩
  | .e => ⟨element.x, element.y, mouseX - element.x, element.height⟩
  | .se => ⟨element.x, element.y, mouseX - element.x, mouseY - element.y⟩
  | .s => ⟨element.x, element.y, element.width, mouseY - element.y⟩
  | .sw => ⟨mouseX, element.y, element.x + element.width - mouseX, mouseY - element.y⟩
  | .w => ⟨mouseX, element.y, element.x + element.width - mouseX, element.height⟩

/-- The vertex update applied inside `setElements(prev => prev.map(...))`
(lines 758-762): set the new bounds, clamping width and height to 20. -/
def resizeVertexUpdate (b : ResizeBounds) (el : DiagramElement) : DiagramElement :=
  { el with x := b.nx, y := b.ny, width := max 20 b.nw, height := max 20 b.nh }

/-- `Math.min(...)` over a nonempty spread; the `[]` case (`Math.min()` is
`Infinity` in JS) is unreachable at every use site, since `fallbackPoints`
always yields at least two points. -/
def listMin : List ℚ → ℚ
  | [] => 0
  | x :: xs => xs.foldl min x

/-- `Math.max(...)` over a nonempty spread (see `listMin`). -/
def listMax : List ℚ → ℚ
  | [] => 0
  | x :: xs => xs.foldl max x

/-- `maxX - minX` of an edge's effective points — the `oldWidth` of the edge
branch of `handleResizeMove` (lines 765-775). -/
def edgeOldWidth (element : DiagramElement) : ℚ :=
  listMax ((fallbackPoints element).map Point.x)
    - listMin ((fallbackPoints element).map Point.x)

/-- `maxY - minY` of an edge's effective points — the `oldHeight`. -/
def edgeOldHeight (element : DiagramElement) : ℚ :=
  listMax ((fallbackPoints element).map Point.y)
    - listMin ((fallbackPoints element).map Point.y)

/-- `handleResizeMove` (lines 704-844), scene part.  `mouseX`/`mouseY` are the
pointer coordinates after pan/zoom adjustment.  Missing selected element is a
no-op; a vertex gets `resizeVertexUpdate`; an edge is scaled about its old
bounding-box centre, guarded against a degenerate (zero-width or zero-height)
old box by an early return (line 777). -/
def handleResizeMove (h : ResizeHandle) (mouseX mouseY : ℚ)
    (els : List DiagramElement) (selectedId : String) : List DiagramElement :=
  match els.find? (fun el => decide (el.id = selectedId)) with
  | none => els
  | some element =>
    if element.type = .vertex then
      els.map (fun el =>
        if el.id = selectedId then
          resizeVertexUpdate (vertexResizeBounds h mouseX mouseY element) el
        else el)
    else
      let pts := fallbackPoints element
      let minX := listMin (pts.map Point.x)
      let minY := listMin (pts.map Point.y)
      let maxX := listMax (pts.map Point.x)
      let maxY := listMax (pts.map Point.y)
      if edgeOldWidth element = 0 ∨ edgeOldHeight element = 0 then els
      else
        let b := vertexResizeBounds h mouseX mouseY element
        let newWidth := max 20 b.nw
        let newHeight := max 20 b.nh
        let scaleX := newWidth / edgeOldWidth element
        let scaleY := newHeight / edgeOldHeight element
        let centerX := (minX + maxX) / 2
        let centerY := (minY + maxY) / 2
        let newCenterX := b.nx + newWidth / 2
        let newCenterY := b.ny + newHeight / 2
        let newPoints := pts.map (fun p =>
          Point.mk (newCenterX + (p.x - centerX) * scaleX)
                   (newCenterY + (p.y - centerY) * scaleY))
        els.map (fun el =>
          if el.id = selectedId then
            { el with points := newPoints, x := b.nx, y := b.ny,
                      width := newWidth, height := newHeight }
          else el)

/-- The 2D rotation of `handleRotateMove`'s edge branch (lines 881-884):
`c`/`s` model `cosA`/`sinA` (the cosine and sine of the pointer angle in
radians — abstracted because cosine and sine of an arbitrary angle are
transcendental) and `(cx, cy)` the captured rotation centre. -/
def rotatePoint (c s cx cy : ℚ) (p : Point) : Point :=
  ⟨cx + (p.x - cx) * c - (p.y - cy) * s,
   cy + (p.x - cx) * s + (p.y - cy) * c⟩

/-- Squared Euclidean distance between two points. -/
def distSq (p q : Point) : ℚ :=
  (p.x - q.x) ^ 2 + (p.y - q.y) ^ 2

/-- `handleRotateMove` (lines 859-897), edge branch, scene part: rotate the
captured pre-drag points (`initialRotatePoints || element.points || []`,
passed as `basePts`) about the captured centre and recompute the bounding
box as the min/max over the rotated points. -/
def handleRotateMoveEdge (c s cx cy : ℚ) (basePts : List Point)
    (els : List DiagramElement) (selectedId : String) : List DiagramElement :=
  let rotated := basePts.map (rotatePoint c s cx cy)
  let minX := listMin (rotated.map Point.x)
  let minY := listMin (rotated.map Point.y)
  let maxX := listMax (rotated.map Point.x)
  let maxY := listMax (rotated.map Point.y)
  els.map (fun el =>
    if el.id = selectedId then
      { el with points := rotated, x := minX, y := minY,
                width := maxX - minX, height := maxY - minY }
    else el)

/-! ## History manager (lines 419-442) -/

/-- The history-related component state: `elements`, `history`,
`historyIndex` (initialised to `-1` before the first load, hence `ℤ`). -/
structure EditorState where
  elements : List DiagramElement
  history : List (List DiagramElement)
  historyIndex : ℤ
deriving DecidableEq

/-- `saveToHistory` (lines 419-424): truncate to `history.slice(0, historyIndex+1)`,
push a copy of the current elements, move the index to the new last entry.
(The same slice/push/set sequence is inlined at every commit site:
mouse-up, resize-up, rotate-up, text save, delete, paste, add.) -/
def saveToHistory (st : EditorState) : EditorState :=
  let newHistory := st.history.take (st.historyIndex + 1).toNat ++ [st.elements]
  { st with history := newHistory, historyIndex := (newHistory.length : ℤ) - 1 }

/-- `undo` (lines 426-433): no-op unless `historyIndex > 0`. -/
def undo (st : EditorState) : EditorState :=
  if 0 < st.historyIndex then
    { st with elements := st.history.getD (st.historyIndex - 1).toNat [],
              historyIndex := st.historyIndex - 1 }
  else st

/-- `redo` (lines 435-442): no-op unless `historyIndex < history.length - 1`. -/
def redo (st : EditorState) : EditorState :=
  if st.historyIndex < (st.history.length : ℤ) - 1 then
    { st with elements := st.history.getD (st.historyIndex + 1).toNat [],
              historyIndex := st.historyIndex + 1 }
  else st

/-! ## Concrete fixtures

The spec's Scenario A document: vertices `2` at `(40,40,120,60)` and `3` at
`(300,40,120,60)` under the usual root/layer scaffold. -/

/-- Reserved root cell `id="0"`. -/
def cell0 : MxCell := { id := some "0" }

/-- Reserved layer cell `id="1"`. -/
def cell1 : MxCell := { id := some "1", parent := some "0" }

/-- Vertex cell `id="2"` at `(40,40,120,60)`. -/
def v2cell : MxCell :=
  { id := some "2", vertex := some "1", value := some "A", style := some "rounded=0",
    parent := some "1",
    geom := some { x := some "40", y := some "40", width := some "120",
                   height := some "60", asv := some "geometry" } }

/-- Vertex cell `id="3"` at `(300,40,120,60)`. -/
def v3cell : MxCell :=
  { id := some "3", vertex := some "1", value := some "B", style := some "rounded=0",
    parent := some "1",
    geom := some { x := some "300", y := some "40", width := some "120",
                   height := some "60", asv := some "geometry" } }

/-- The Scenario A document. -/
def scenarioADoc : XmlDoc := ⟨[cell0, cell1, v2cell, v3cell]⟩

/-- The Scenario A scene: decode, then `AddEdge("2","3")`. -/
def scenarioAScene : List DiagramElement :=
  addArrow (parseXmlToElements scenarioADoc) "2" "3" "arrow1" "edgeStyle=straight"

/-- Scenario A's vertex `2` as a scene element. -/
def vA : DiagramElement :=
  { id := "2", type := .vertex, x := 40, y := 40, width := 120, height := 60,
    value := "A", style := "rounded=0" }

/-- Scenario A's vertex `3` as a scene element. -/
def vB : DiagramElement :=
  { id := "3", type := .vertex, x := 300, y := 40, width := 120, height := 60,
    value := "B", style := "rounded=0" }

/-- A free edge (empty `source`/`target`), as created by `addArrowFromDrop`. -/
def freeEdge : DiagramElement :=
  { id := "free1", type := .edge, x := 0, y := 0, width := 10, height := 10,
    value := "", style := "edgeStyle=straight", source := "", target := "",
    points := [⟨0, 0⟩, ⟨10, 10⟩] }

/-- An edge both of whose endpoints are vertex `3`. -/
def loopEdge3 : DiagramElement :=
  { id := "loop3", type := .edge, x := 300, y := 40, width := 20, height := 20,
    value := "", style := "edgeStyle=straight", source := "3", target := "3",
    points := [⟨310, 50⟩, ⟨330, 70⟩] }

/-- An edge element with id `"e"` (an endpoint candidate that is not a vertex). -/
def edgeE : DiagramElement :=
  { id := "e", type := .edge, x := 0, y := 0, width := 50, height := 50,
    value := "", style := "edgeStyle=straight", source := "", target := "",
    points := [⟨0, 0⟩, ⟨50, 50⟩] }

/-- A vertical edge: its points' bounding box has width 0. -/
def verticalEdge : DiagramElement :=
  { id := "vert1", type := .edge, x := 5, y := 0, width := 0, height := 10,
    value := "", style := "edgeStyle=straight", source := "", target := "",
    points := [⟨5, 0⟩, ⟨5, 10⟩] }

/-- An edge cell with a `value` attribute and matching id `"e"`. -/
def edgeECell : MxCell :=
  { id := some "e", edge := some "1", value := some "old label",
    style := some "edgeStyle=straight", parent := some "1",
    geom := some { relative := some "1", asv := some "geometry",
                   children := [.point ⟨some "sourcePoint", some "0", some "0"⟩,
                                .point ⟨some "targetPoint", some "50", some "50"⟩] } }

/-- A stale cell whose `id` attribute is present but empty. -/
def junkCell : MxCell := { id := some "", value := some "stale" }

/-- A document containing the scaffold plus the empty-id stale cell. -/
def junkDoc : XmlDoc := ⟨[cell0, cell1, junkCell]⟩

/-- A vertex geometry whose `x` attribute is present but not a number. -/
def badGeo : MxGeometry :=
  { x := some "abc", y := some "40", width := some "120", height := some "60" }

/-! ## Claims -/

/-- C4.  History truncation: committing a new snapshot when the cursor is at
position `c` truncates the history to entries `0..c`, appends the new
snapshot, and sets the cursor to the new last index; consequently `redo`
after a commit is a no-op (elements, history and cursor unchanged), in
particular after a commit performed following one or more undos. -/
theorem C4_commit_truncates_and_redo_noop (st : EditorState) :
    (saveToHistory st).history
      = st.history.take (st.historyIndex + 1).toNat ++ [st.elements]
    ∧ (saveToHistory st).historyIndex = ((saveToHistory st).history.length : ℤ) - 1
    ∧ redo (saveToHistory st) = saveToHistory st := by
  refine ⟨rfl, rfl, ?_⟩
  unfold redo
  rw [if_neg]
  simp [saveToHistory]

/-- C5.  Minimum-size invariant: a resize of a vertex, with any of the eight
handles and any pointer position, yields a vertex with `width ≥ 20` and
`height ≥ 20`. -/
theorem C5_resize_min_size (h : ResizeHandle) (mouseX mouseY : ℚ)
    (els : List DiagramElement) (selectedId : String) (element : DiagramElement)
    (hfind : els.find? (fun el => decide (el.id = selectedId)) = some element)
    (hvtx : element.type = .vertex)
    (e : DiagramElement) (he : e ∈ handleResizeMove h mouseX mouseY els selectedId)
    (hid : e.id = selectedId) :
    20 ≤ e.width ∧ 20 ≤ e.height := by
  unfold handleResizeMove at he
  rw [hfind] at he
  simp only [hvtx, if_pos] at he
  rcases List.mem_map.1 he with ⟨el, _, rfl⟩
  by_cases hc : el.id = selectedId
  · simp only [hc, if_pos]
    exact ⟨le_max_left _ _, le_max_left _ _⟩
  · rw [if_neg hc] at hid ⊢
    exact absurd hid hc

/-- C5 witness: resizing Scenario A's vertex `2` with the `se` handle and the
pointer dragged to `(5, 5)` (far past the opposite corner) still yields
width and height `≥ 20`. -/
theorem C5_witness :
    (resizeVertexUpdate (vertexResizeBounds .se 5 5 vA) vA)
        ∈ handleResizeMove .se 5 5 [vA] "2"
    ∧ 20 ≤ (resizeVertexUpdate (vertexResizeBounds .se 5 5 vA) vA).width
    ∧ 20 ≤ (resizeVertexUpdate (vertexResizeBounds .se 5 5 vA) vA).height := by
  refine ⟨of_decide_eq_true (by with_unfolding_all rfl), ?_⟩
  exact C5_resize_min_size .se 5 5 [vA] "2" vA
    (of_decide_eq_true (by with_unfolding_all rfl)) rfl
    _ (of_decide_eq_true (by with_unfolding_all rfl)) rfl

/-- C8.  Degenerate edge-resize guard: when the old bounding box of the
selected edge's (effective) points has zero width or zero height, the resize
handler returns the scene unchanged — the scaling step (the only division in
the operation) is skipped, so no division by zero is performed. -/
theorem C8_degenerate_edge_resize_noop (h : ResizeHandle) (mouseX mouseY : ℚ)
    (els : List DiagramElement) (selectedId : String) (element : DiagramElement)
    (hfind : els.find? (fun el => decide (el.id = selectedId)) = some element)
    (hedge : element.type = .edge)
    (hdeg : edgeOldWidth element = 0 ∨ edgeOldHeight element = 0) :
    handleResizeMove h mouseX mouseY els selectedId = els := by
  unfold handleResizeMove
  rw [hfind]
  simp [hedge, hdeg]

/-- C8 witness: resizing the vertical edge (bounding box of zero width)
leaves the scene unchanged. -/
theorem C8_witness :
    edgeOldWidth verticalEdge = 0
    ∧ handleResizeMove .se 100 100 [verticalEdge] "vert1" = [verticalEdge] := by
  refine ⟨of_decide_eq_true (by with_unfolding_all rfl), ?_⟩
  exact C8_degenerate_edge_resize_noop .se 100 100 [verticalEdge] "vert1" verticalEdge
    (of_decide_eq_true (by with_unfolding_all rfl)) rfl
    (Or.inl (of_decide_eq_true (by with_unfolding_all rfl)))

/-- Rotation about `(cx, cy)` by an angle with cosine `c` and sine `s`
preserves squared distances. -/
theorem rotatePoint_distSq (c s cx cy : ℚ) (hcs : c ^ 2 + s ^ 2 = 1) (p q : Point) :
    distSq (rotatePoint c s cx cy p) (rotatePoint c s cx cy q) = distSq p q := by
  unfold distSq rotatePoint
  linear_combination ((p.x - q.x) ^ 2 + (p.y - q.y) ^ 2) * hcs

/-- C9.  Edge rotation is isometric: the rotate handler maps the selected
edge's captured points through the standard 2D rotation about the captured
pivot, recomputes the bounding box as the min/max over the rotated points,
and (whenever `c`, `s` are the cosine and sine of an angle,
i.e. `c² + s² = 1`) preserves every pairwise distance between the points. -/
theorem C9_edge_rotation_isometric (c s cx cy : ℚ) (hcs : c ^ 2 + s ^ 2 = 1)
    (basePts : List Point) (els : List DiagramElement) (selectedId : String)
    (e : DiagramElement) (he : e ∈ handleRotateMoveEdge c s cx cy basePts els selectedId)
    (hid : e.id = selectedId) :
    e.points = basePts.map (rotatePoint c s cx cy)
    ∧ e.x = listMin (e.points.map Point.x)
    ∧ e.y = listMin (e.points.map Point.y)
    ∧ e.width = listMax (e.points.map Point.x) - listMin (e.points.map Point.x)
    ∧ e.height = listMax (e.points.map Point.y) - listMin (e.points.map Point.y)
    ∧ ∀ p ∈ basePts, ∀ q ∈ basePts,
        distSq (rotatePoint c s cx cy p) (rotatePoint c s cx cy q) = distSq p q := by
  unfold handleRotateMoveEdge at he
  rcases List.mem_map.1 he with ⟨el, _, rfl⟩
  by_cases hc : el.id = selectedId
  · rw [if_pos hc]
    exact ⟨rfl, rfl, rfl, rfl, rfl, fun p _ q _ => rotatePoint_distSq c s cx cy hcs p q⟩
  · rw [if_neg hc] at hid ⊢
    exact absurd hid hc

/-- C9 witness: rotating the free edge's points by the angle with
cosine `3/5`, sine `4/5` about the origin: the updated element carries the
rotated points with the recomputed box, and the (squared) distance between
the two points is preserved. -/
theorem C9_witness :
    ({ freeEdge with points := [⟨0, 0⟩, ⟨-2, 14⟩],
                     x := -2, y := 0, width := 2, height := 14 } : DiagramElement).points
        = [(⟨0, 0⟩ : Point), ⟨10, 10⟩].map (rotatePoint (3/5) (4/5) 0 0)
    ∧ distSq (rotatePoint (3/5) (4/5) 0 0 ⟨0, 0⟩) (rotatePoint (3/5) (4/5) 0 0 ⟨10, 10⟩)
        = distSq ⟨0, 0⟩ ⟨10, 10⟩ := by
  have h := C9_edge_rotation_isometric (3/5) (4/5) 0 0
    (of_decide_eq_true (by with_unfolding_all rfl))
    [⟨0, 0⟩, ⟨10, 10⟩] [freeEdge] "free1"
    ({ freeEdge with points := [⟨0, 0⟩, ⟨-2, 14⟩], x := -2, y := 0, width := 2, height := 14 })
    (of_decide_eq_true (by with_unfolding_all rfl)) rfl
  refine ⟨?_, h.2.2.2.2.2 ⟨0, 0⟩ (by simp) ⟨10, 10⟩ (by simp)⟩
  exact of_decide_eq_true (by with_unfolding_all rfl)

/-- C10.  Frame effect of encode's update-existing-cell branch: updating an
edge cell rewrites its geometry (source point, target point, waypoint array)
and — when nonempty in the element — its `style`, `source` and `target`, but
never writes the cell's `value` attribute; updating a vertex cell always
rewrites `value`. -/
theorem C10_edge_update_never_writes_value (el : DiagramElement) (c : MxCell) :
    (el.type = .edge →
      (updateCell el c).value = c.value
        ∧ (updateCell el c).geom.map MxGeometry.children
            = some (edgeGeomChildren (fallbackPoints el)))
    ∧ (el.type = .vertex → (updateCell el c).value = some el.value) := by
  unfold updateCell
  constructor <;> intro h <;> simp [h]

/-- C10 witness: updating edge cell `"e"` (value `"old label"`) from element
`edgeE` (value `""`) leaves the cell's value attribute untouched, while a
vertex update writes the element's value. -/
theorem C10_witness :
    (updateCell edgeE edgeECell).value = edgeECell.value
    ∧ (updateCell vA v2cell).value = some vA.value :=
  ⟨((C10_edge_update_never_writes_value edgeE edgeECell).1 rfl).1,
   (C10_edge_update_never_writes_value vA v2cell).2 rfl⟩

/-- C1 (code bug).  The round-trip guarantee fails on the code at the spec's
own Scenario A: the scene holds the added edge with
`points = [(100,70), (360,70)]` (the two vertex centres), but decoding the
re-encoded document yields that edge with `points = []` — the decoder reads
edge points only from the waypoint `Array`, never from
`sourcePoint`/`targetPoint`, while the encoder stores the first and last
point exactly there. -/
theorem C1_roundtrip_fails_scenarioA :
    scenarioAScene.map (fun e => e.points)
      = [[], [], [⟨100, 70⟩, ⟨360, 70⟩]]
    ∧ (parseXmlToElements (elementsToXml scenarioAScene scenarioADoc)).map (fun e => e.points)
      = [[], [], []]
    ∧ parseXmlToElements (elementsToXml scenarioAScene scenarioADoc) ≠ scenarioAScene :=
  of_decide_eq_true (by with_unfolding_all rfl)

/-- C2 counterexample: a stale cell whose `id` attribute is the empty string
survives encode with an empty element list, although its id (`""`) is outside
`{"0","1"} ∪ ids([]) = {"0","1"}` — the removal pass skips falsy ids. -/
theorem C2_empty_id_cell_survives :
    junkCell ∈ (elementsToXml [] junkDoc).cells
    ∧ junkCell.id.getD "" ∉ keepIdsOf [] :=
  of_decide_eq_true (by with_unfolding_all rfl)

/-- `updateCell` never touches the `id` attribute. -/
theorem updateCell_id (el : DiagramElement) (c : MxCell) :
    (updateCell el c).id = c.id := by
  unfold updateCell
  by_cases h : el.type = .vertex <;> simp [h]

/-- `newCellFor` writes the element's id. -/
theorem newCellFor_id (el : DiagramElement) :
    (newCellFor el).id = some el.id := by
  unfold newCellFor
  by_cases h : el.type = .vertex <;> simp [h]

/-- A member of `replaceFirstCell elId f l` is a member of `l` or the image
under `f` of a member of `l`. -/
theorem mem_replaceFirstCell {elId : String} {f : MxCell → MxCell} :
    ∀ {l : List MxCell} {e : MxCell},
      e ∈ replaceFirstCell elId f l → e ∈ l ∨ ∃ c ∈ l, e = f c := by
  intro l
  induction l with
  | nil => intro e he; simp [replaceFirstCell] at he
  | cons c cs ih =>
    intro e he
    unfold replaceFirstCell at he
    by_cases hc : c.id = some elId
    · rw [if_pos hc] at he
      rcases List.mem_cons.1 he with h | h
      · exact Or.inr ⟨c, List.mem_cons_self c cs, h⟩
      · exact Or.inl (List.mem_cons_of_mem _ h)
    · rw [if_neg hc] at he
      rcases List.mem_cons.1 he with h | h
      · exact Or.inl (h ▸ List.mem_cons_self c cs)
      · rcases ih h with h1 | ⟨c0, hc0, h2⟩
        · exact Or.inl (List.mem_cons_of_mem _ h1)
        · exact Or.inr ⟨c0, List.mem_cons_of_mem _ hc0, h2⟩

/-- One encode-loop step preserves the id invariant: every cell's id stays
empty or in the keep set. -/
theorem applyElement_id_invariant (elements : List DiagramElement)
    (el : DiagramElement) (hel : el.id ∈ keepIdsOf elements) (cells : List MxCell)
    (hc : ∀ c ∈ cells, c.id.getD "" = "" ∨ c.id.getD "" ∈ keepIdsOf elements) :
    ∀ c ∈ applyElement cells el,
      c.id.getD "" = "" ∨ c.id.getD "" ∈ keepIdsOf elements := by
  intro c hcmem
  unfold applyElement at hcmem
  by_cases hany : (cells.any (fun c => decide (c.id = some el.id))) = true
  · rw [if_pos hany] at hcmem
    rcases mem_replaceFirstCell hcmem with h | ⟨c0, hc0, h2⟩
    · exact hc c h
    · rw [h2, updateCell_id]
      exact hc c0 hc0
  · rw [if_neg hany] at hcmem
    rcases List.mem_append.1 hcmem with h | h
    · exact hc c h
    · rw [List.mem_singleton.1 h, newCellFor_id]
      exact Or.inr hel

/-- The encode loop preserves the id invariant. -/
theorem foldl_applyElement_id_invariant (elements : List DiagramElement) :
    ∀ (work : List DiagramElement), (∀ el ∈ work, el.id ∈ keepIdsOf elements) →
      ∀ (cells : List MxCell),
        (∀ c ∈ cells, c.id.getD "" = "" ∨ c.id.getD "" ∈ keepIdsOf elements) →
        ∀ c ∈ work.foldl applyElement cells,
          c.id.getD "" = "" ∨ c.id.getD "" ∈ keepIdsOf elements := by
  intro work
  induction work with
  | nil => intro _ cells hc; simpa using hc
  | cons el rest ih =>
    intro hw cells hc
    rw [List.foldl_cons]
    exact ih (fun x hx => hw x (List.mem_cons_of_mem _ hx))
      (applyElement cells el)
      (applyElement_id_invariant elements el (hw el (List.mem_cons_self _ _)) cells hc)

/-- C2 (amended).  Encode removes stale cells with a truthy id: every cell of
`Encode(E, X)` whose id attribute is nonempty has its id in
`{"0","1"} ∪ ids(E)`; after an element with a nonempty id is deleted from the
scene, its cell no longer appears.  (Cells whose id attribute is missing or
empty are kept regardless.) -/
theorem C2_encode_removes_stale (elements : List DiagramElement) (doc : XmlDoc)
    (c : MxCell) (hc : c ∈ (elementsToXml elements doc).cells)
    (hne : c.id.getD "" ≠ "") :
    c.id.getD "" ∈ keepIdsOf elements := by
  have base : ∀ c0 ∈ removeStale elements doc.cells,
      c0.id.getD "" = "" ∨ c0.id.getD "" ∈ keepIdsOf elements := by
    intro c0 h0
    have hp := List.of_mem_filter h0
    by_cases hid : c0.id.getD "" = ""
    · exact Or.inl hid
    · simp only [hid, decide_True, ne_eq, not_false_iff, decide_not] at hp
      right
      by_contra hmem
      simp [hid, hmem] at hp
  have hw : ∀ el ∈ elements, el.id ∈ keepIdsOf elements := by
    intro el hel
    unfold keepIdsOf
    exact List.mem_cons_of_mem _ (List.mem_cons_of_mem _ (List.mem_map_of_mem _ hel))
  have hall := foldl_applyElement_id_invariant elements elements hw
    (removeStale elements doc.cells) base c hc
  rcases hall with h | h
  · exact absurd h hne
  · exact h

/-- C2 witness: encoding `[vA]` over the Scenario A document leaves (the
updated) cell `2` whose nonempty id is in the keep set. -/
theorem C2_witness :
    updateCell vA v2cell ∈ (elementsToXml [vA] scenarioADoc).cells
    ∧ (updateCell vA v2cell).id.getD "" ∈ keepIdsOf [vA] := by
  refine ⟨of_decide_eq_true (by with_unfolding_all rfl), ?_⟩
  exact C2_encode_removes_stale [vA] scenarioADoc (updateCell vA v2cell)
    (of_decide_eq_true (by with_unfolding_all rfl))
    (of_decide_eq_true (by with_unfolding_all rfl))

/-- C3 counterexample: deleting vertex `3` from a scene that also contains a
free edge (both endpoints empty) removes the free edge as well — the claim's
"an Edge with an empty endpoint is retained" fails, because the prune looks
the empty string up in the vertex-id set like any other id. -/
theorem C3_free_edge_not_retained :
    freeEdge.source = "" ∧ freeEdge.target = ""
    ∧ deleteSelected [vB, freeEdge] "3" = [] :=
  of_decide_eq_true (by with_unfolding_all rfl)

/-- Pruning keeps every vertex, so it does not change the vertex-id set. -/
theorem vertexIdsOf_prune (l : List DiagramElement) :
    vertexIdsOf (pruneDanglingEdges l) = vertexIdsOf l := by
  unfold pruneDanglingEdges vertexIdsOf
  rw [List.filter_filter]
  congr 1
  apply List.filter_congr
  intro e _
  by_cases hv : e.type = .vertex <;> simp [hv]

/-- C3 (amended).  After `Delete`, every remaining edge's `source` and
`target` are each empty or the id of a vertex present in the resulting scene
(in fact each is the id of a present vertex: edges with an empty endpoint
are pruned too, not retained). -/
theorem C3_delete_leaves_no_dangling_edge (els : List DiagramElement)
    (deletedId : String) (e : DiagramElement)
    (he : e ∈ deleteSelected els deletedId) (hedge : e.type = .edge) :
    (e.source = "" ∨ e.source ∈ vertexIdsOf (deleteSelected els deletedId))
    ∧ (e.target = "" ∨ e.target ∈ vertexIdsOf (deleteSelected els deletedId)) := by
  unfold deleteSelected at he ⊢
  rw [vertexIdsOf_prune]
  unfold pruneDanglingEdges at he
  have hmem := List.mem_filter.1 he
  have hp := hmem.2
  have hnv : (decide (e.type = ElemType.vertex)) = false := by
    simp [hedge]
  rw [hnv] at hp
  simp only [Bool.false_or, Bool.and_eq_true, decide_eq_true_eq] at hp
  exact ⟨Or.inr hp.1, Or.inr hp.2⟩

/-- C3 witness: deleting vertex `2` from a scene with vertices `2`, `3` and a
self-loop edge on `3` leaves the loop edge, whose endpoints refer to the
remaining vertex `3`. -/
theorem C3_witness :
    loopEdge3 ∈ deleteSelected [vA, vB, loopEdge3] "2"
    ∧ ((loopEdge3.source = ""
          ∨ loopEdge3.source ∈ vertexIdsOf (deleteSelected [vA, vB, loopEdge3] "2"))
        ∧ (loopEdge3.target = ""
          ∨ loopEdge3.target ∈ vertexIdsOf (deleteSelected [vA, vB, loopEdge3] "2"))) := by
  refine ⟨of_decide_eq_true (by with_unfolding_all rfl), ?_⟩
  exact C3_delete_leaves_no_dangling_edge [vA, vB, loopEdge3] "2" loopEdge3
    (of_decide_eq_true (by with_unfolding_all rfl)) rfl

/-- C6 counterexample: `addArrow` does not fail when an endpoint id is absent
from the vertex set — id `"e"` names an edge, not a vertex, yet the call
creates a new arrow (the lookup is `elements.find`, over all elements). -/
theorem C6_addArrow_accepts_edge_endpoint :
    "e" ∉ vertexIdsOf [edgeE, vB]
    ∧ addArrow [edgeE, vB] "e" "3" "a2" "sty" ≠ [edgeE, vB] :=
  of_decide_eq_true (by with_unfolding_all rfl)

/-- C6 (amended).  `addArrow` fails (scene unchanged, no edge created) iff
either id is absent from the scene's **element** set — vertices and edges
alike; otherwise it appends exactly one new edge with
`source`/`target` the given ids and `points` the two looked-up elements'
centres `(x + width/2, y + height/2)`, bounding box derived from those two
points. -/
theorem C6_addArrow_characterisation (els : List DiagramElement)
    (sourceId targetId freshId arrowStyle : String) :
    ((els.find? (fun el => decide (el.id = sourceId)) = none
        ∨ els.find? (fun el => decide (el.id = targetId)) = none) →
      addArrow els sourceId targetId freshId arrowStyle = els)
    ∧ (∀ sEl tEl,
        els.find? (fun el => decide (el.id = sourceId)) = some sEl →
        els.find? (fun el => decide (el.id = targetId)) = some tEl →
        addArrow els sourceId targetId freshId arrowStyle
          = els ++ [arrowBetween sEl tEl sourceId targetId freshId arrowStyle]) := by
  constructor
  · intro h
    unfold addArrow
    rcases h with h | h
    · rw [h]
    · rw [h]
      cases els.find? (fun el => decide (el.id = sourceId)) <;> rfl
  · intro sEl tEl hs ht
    unfold addArrow
    rw [hs, ht]

/-- C6 witness: on the empty scene `addArrow` is a no-op; on `[vA, vB]` it
appends the arrow between the two vertex centres. -/
theorem C6_witness :
    addArrow [] "2" "3" "a3" "sty" = []
    ∧ addArrow [vA, vB] "2" "3" "a3" "sty"
        = [vA, vB] ++ [arrowBetween vA vB "2" "3" "a3" "sty"] :=
  ⟨(C6_addArrow_characterisation [] "2" "3" "a3" "sty").1 (Or.inl rfl),
   (C6_addArrow_characterisation [vA, vB] "2" "3" "a3" "sty").2 vA vB
     (of_decide_eq_true (by with_unfolding_all rfl))
     (of_decide_eq_true (by with_unfolding_all rfl))⟩

/-- C7 counterexample: a vertex `x` attribute that is present but unparsable
(`"abc"`) decodes to `NaN` (modelled `none`), not to the claimed default 0 —
`parseFloat(attr || "0")` only defaults missing/empty attributes. -/
theorem C7_unparsable_attr_gives_nan :
    (vertexGeomNums badGeo).1 = none
    ∧ (vertexGeomNums badGeo).1 ≠ some 0 :=
  of_decide_eq_true (by with_unfolding_all rfl)

/-- C7 (amended).  A numeric attribute that is missing or empty decodes to
its default — 0, or 120/60 for a vertex's width/height; an attribute that is
present but unparsable yields `NaN` instead
(the never-NaN clause fails there). -/
theorem C7_missing_or_empty_attr_defaults (a : Option String)
    (ha : a = none ∨ a = some "") :
    readNumAttr a "0" = some 0
    ∧ readNumAttr a "120" = some 120
    ∧ readNumAttr a "60" = some 60 := by
  rcases ha with rfl | rfl <;> exact of_decide_eq_true (by with_unfolding_all rfl)

/-- C7 witness: the defaults at a missing attribute. -/
theorem C7_witness :
    readNumAttr none "0" = some 0
    ∧ readNumAttr none "120" = some 120
    ∧ readNumAttr none "60" = some 60 :=
  C7_missing_or_empty_attr_defaults none (Or.inl rfl)

end ArchEd
